import Mathlib

/-!
Shallow embedding of the receipt generator (recibo_web_app.py): the
amount-to-words converter valor_por_extenso and the PDF layout engine
gerar_recibo_pdf_memoria, together with theorems settling the frozen claims.

Modelling conventions:
- Python str is modelled as Lean String, or List Char where index arithmetic
  (slicing, rfind) matters.
- Python float arithmetic is modelled by exact rational arithmetic on the
  decimal literal value.  Python round (banker's rounding, round half to
  even) is pyRound; Python int() truncation toward zero is truncRat.
- float(value) applied to a plain decimal string is modelled by parseAmount,
  which returns none exactly when the string is not a decimal literal
  (optional sign, digits, at most one dot); Python raises ValueError there.
- reportlab canvas calls are modelled as a list of DrawOp values; BytesIO
  output bytes are identified with that list of drawing operations.
-/

attribute [local semireducible] Rat.add Rat.sub Rat.mul Rat.inv

/-- Truncation toward zero, the behaviour of Python int() on a float. -/
def truncRat (v : ℚ) : ℤ := if 0 ≤ v then ⌊v⌋ else -⌊-v⌋

/-- Python round() on a rational value: round half to even (banker's
rounding), returning an integer. -/
def pyRound (x : ℚ) : ℤ :=
  if x - (⌊x⌋ : ℚ) < 1/2 then ⌊x⌋
  else if 1/2 < x - (⌊x⌋ : ℚ) then ⌊x⌋ + 1
  else if ⌊x⌋ % 2 = 0 then ⌊x⌋ else ⌊x⌋ + 1

/-- Numeric value of one decimal digit character. -/
def digitVal (c : Char) : ℕ := c.toNat - 48

/-- Value of a list of decimal digit characters, most significant first. -/
def digitsToNat (ds : List Char) : ℕ := ds.foldl (fun a c => 10 * a + digitVal c) 0

/-- Model of float(value) on a plain decimal literal: optional sign, digits,
at most one dot, at least one digit.  Returns the exact rational value of the
literal, or none when the string cannot be parsed as a number (where Python
float() raises ValueError). -/
def parseAmount (s : String) : Option ℚ :=
  let cs := s.toList
  let neg : Bool := cs.head? = some '-'
  let body : List Char :=
    match cs with
    | '-' :: t => t
    | '+' :: t => t
    | _ => cs
  let ip := body.takeWhile Char.isDigit
  let rest := body.dropWhile Char.isDigit
  let build : ℕ → ℕ → Option ℚ := fun m k =>
    let q : ℚ := mkRat (Int.ofNat m) (10 ^ k)
    some (if neg then -q else q)
  match rest with
  | [] => if ip.isEmpty then none else build (digitsToNat ip) 0
  | '.' :: fp =>
      if fp.all Char.isDigit && (!ip.isEmpty || !fp.isEmpty) then
        build (digitsToNat ip * 10 ^ fp.length + digitsToNat fp) fp.length
      else none
  | _ => none

/-- Modelled from the spec: the num2words library (an external dependency,
not part of this repository's sources) converts an integer to its pt_BR
cardinal words; the spec describes it as the standard deterministic
integer-to-cardinal-words conversion for the locale.  Units table 1..9. -/
def unidade : ℕ → String
  | 1 => "um"
  | 2 => "dois"
  | 3 => "três"
  | 4 => "quatro"
  | 5 => "cinco"
  | 6 => "seis"
  | 7 => "sete"
  | 8 => "oito"
  | 9 => "nove"
  | _ => ""

/-- Modelled from the spec: pt_BR words for 10..19. -/
def dezAdezenove : ℕ → String
  | 10 => "dez"
  | 11 => "onze"
  | 12 => "doze"
  | 13 => "treze"
  | 14 => "catorze"
  | 15 => "quinze"
  | 16 => "dezesseis"
  | 17 => "dezessete"
  | 18 => "dezoito"
  | 19 => "dezenove"
  | _ => ""

/-- Modelled from the spec: pt_BR tens words, argument is the tens digit. -/
def dezena : ℕ → String
  | 2 => "vinte"
  | 3 => "trinta"
  | 4 => "quarenta"
  | 5 => "cinquenta"
  | 6 => "sessenta"
  | 7 => "setenta"
  | 8 => "oitenta"
  | 9 => "noventa"
  | _ => ""

/-- Modelled from the spec: pt_BR hundreds words, argument is the hundreds
digit ("cento" composes, the exact value 100 is "cem" and is special-cased
by the caller). -/
def centena : ℕ → String
  | 1 => "cento"
  | 2 => "duzentos"
  | 3 => "trezentos"
  | 4 => "quatrocentos"
  | 5 => "quinhentos"
  | 6 => "seiscentos"
  | 7 => "setecentos"
  | 8 => "oitocentos"
  | 9 => "novecentos"
  | _ => ""

/-- Modelled from the spec: pt_BR words for 1..99. -/
def sub100 (n : ℕ) : String :=
  if n < 10 then unidade n
  else if n < 20 then dezAdezenove n
  else if n % 10 = 0 then dezena (n / 10)
  else dezena (n / 10) ++ " e " ++ unidade (n % 10)

/-- Modelled from the spec: pt_BR words for 1..999. -/
def sub1000 (n : ℕ) : String :=
  if n = 100 then "cem"
  else if n < 100 then sub100 n
  else if n % 100 = 0 then centena (n / 100)
  else centena (n / 100) ++ " e " ++ sub100 (n % 100)

/-- Modelled from the spec: the nonzero base-1000 groups of a number, most
significant first, paired with the index of their scale (0 units, 1
thousands, 2 millions, 3 billions).  Supports the spec's required magnitude
range (up to 999999999 and beyond, below 10^12). -/
def milharGroups (n : ℕ) : List (ℕ × ℕ) :=
  [(n / 10 ^ 9 % 1000, 3), (n / 10 ^ 6 % 1000, 2),
   (n / 10 ^ 3 % 1000, 1), (n % 1000, 0)].filter (fun p => p.1 ≠ 0)

/-- Modelled from the spec: words for one base-1000 group at its scale. -/
def scaleWord (g : ℕ) (idx : ℕ) : String :=
  match idx with
  | 0 => sub1000 g
  | 1 => if g = 1 then "mil" else sub1000 g ++ " mil"
  | 2 => if g = 1 then "um milhão" else sub1000 g ++ " milhões"
  | _ => if g = 1 then "um bilhão" else sub1000 g ++ " bilhões"

/-- Modelled from the spec: join group words with a comma separator, using
the given connector before the final group. -/
def joinGroups : List String → String → String
  | [], _ => ""
  | [w], _ => w
  | [w1, w2], conn => w1 ++ conn ++ w2
  | w :: v :: rest, conn => w ++ ", " ++ joinGroups (v :: rest) conn

/-- Modelled from the spec: num2words(n, lang = pt_BR) of the num2words
library, the standard pt_BR cardinal conversion, for 0 <= n < 10^12. -/
def num2words (n : ℕ) : String :=
  if n = 0 then "zero"
  else
    let gs := milharGroups n
    let ws := gs.map (fun p => scaleWord p.1 p.2)
    let lastG := ((gs.getLast?).map Prod.fst).getD 0
    joinGroups ws (if lastG < 100 ∨ lastG % 100 = 0 then " e " else ", ")

/-- Python " e ".join on a list of strings (source line 107). -/
def joinE : List String → String
  | [] => ""
  | [a] => a
  | a :: b :: rest => a ++ " e " ++ joinE (b :: rest)

/-- Embedding of valor_por_extenso (source lines 88-107): parse the value
(returning the empty string when float() raises), split into whole reais
(int() truncation) and centavos (round((v - inteiro) * 100)), build the
parts with singular or plural nouns, and join with " e "; when no part was
produced return the literal "zero reais". -/
def valor_por_extenso (value : String) : String :=
  match parseAmount value with
  | none => ""
  | some v =>
    let inteiro : ℤ := truncRat v
    let centavos : ℤ := pyRound ((v - (inteiro : ℚ)) * 100)
    let partes : List String :=
      (if 0 < inteiro then
        [num2words inteiro.toNat ++ " " ++ (if inteiro = 1 then "real" else "reais")]
       else [])
      ++ (if 0 < centavos then
        [num2words centavos.toNat ++ " " ++ (if centavos = 1 then "centavo" else "centavos")]
       else [])
    if partes = [] then "zero reais" else joinE partes

/-- Decimal digit character for a value 0..9. -/
def digitChar (n : ℕ) : Char := Char.ofNat (48 + n)

/-- Decimal digit characters of a natural number, most significant first
(fuel-structured so that it reduces in the kernel; fuel n always suffices). -/
def natDigitsGo : ℕ → ℕ → List Char
  | 0, n => [digitChar (n % 10)]
  | fuel + 1, n => if n < 10 then [digitChar n] else natDigitsGo fuel (n / 10) ++ [digitChar (n % 10)]

/-- Decimal digit characters of a natural number, most significant first. -/
def natDigits (n : ℕ) : List Char := natDigitsGo n n

/-- Split a list into chunks of three from the front; the last chunk may be
shorter (fuel-structured; fuel at least the length always suffices). -/
def chunks3Go : ℕ → List Char → List (List Char)
  | _, [] => []
  | 0, l => [l]
  | fuel + 1, l => l.take 3 :: chunks3Go fuel (l.drop 3)

/-- Digits of n grouped in threes from the right and joined with commas:
the thousands grouping performed by the Python format specification with
the comma option. -/
def groupComma (n : ℕ) : List Char :=
  let ds := natDigits n
  List.intercalate [','] (((chunks3Go ds.reverse.length ds.reverse).map List.reverse).reverse)

/-- Two-digit zero-padded decimal rendering of n < 100. -/
def pad2 (n : ℕ) : List Char := [digitChar (n / 10 % 10), digitChar (n % 10)]

/-- Model of the Python format specification with comma grouping and two
decimals applied to a value: optional minus sign, comma-grouped integer part,
a dot, exactly two fractional digits.  The two-decimal rounding is round
half to even on the magnitude. -/
def pyFormat2f (v : ℚ) : List Char :=
  (if v < 0 then ['-'] else [])
  ++ groupComma ((pyRound ((if v < 0 then -v else v) * 100)).toNat / 100)
  ++ '.' :: pad2 ((pyRound ((if v < 0 then -v else v) * 100)).toNat % 100)

/-- Python str.replace with a one-character pattern and one-character
replacement is character substitution. -/
def replace1 (a b : Char) (s : List Char) : List Char :=
  s.map (fun c => if c = a then b else c)

/-- The separator swap of source line 142: replace comma by X, dot by comma,
X by dot, turning 1,234.50 into 1.234,50. -/
def swapSeps (s : List Char) : List Char :=
  replace1 'X' '.' (replace1 '.' ',' (replace1 ',' 'X' s))

/-- Embedding of valor_formatado (source line 142): R$ prefix, Python
comma/two-decimal formatting, then the separator swap applied to the whole
string. -/
def valorFormatadoL (v : ℚ) : List Char :=
  swapSeps ('R' :: '$' :: ' ' :: pyFormat2f v)

/-- valor_formatado as a string. -/
def valorFormatado (v : ℚ) : String := String.mk (valorFormatadoL v)

/-- Period termination of the words text (source lines 177-178): if the
text is nonempty and does not already end with a dot, append one. -/
def appendPeriod (s : List Char) : List Char :=
  if s ≠ [] ∧ s.getLast? ≠ some '.' then s ++ ['.'] else s

/-- Python str.rfind of a space: the highest index holding a space, or none. -/
def rfindSpace : List Char → Option ℕ
  | [] => none
  | c :: t =>
    match rfindSpace t with
    | some j => some (j + 1)
    | none => if c == ' ' then some 0 else none

/-- The wrapping loop of source lines 180-193 (fuel-structured; fuel at
least the length always suffices): while text remains, emit it whole if it
fits in 90 characters, otherwise break at the last space within the first
90 characters, or hard-break at 90 when no space is there. -/
def wrapGo : ℕ → List Char → List (List Char)
  | _, [] => []
  | 0, s => [s]
  | fuel + 1, s =>
    if s.length ≤ 90 then [s]
    else
      match rfindSpace (s.take 90) with
      | none => s.take 90 :: wrapGo fuel (s.drop 90)
      | some j => s.take j :: wrapGo fuel (s.drop (j + 1))

/-- The full list of wrapped lines built by the loop of source lines 180-193. -/
def wrapLines (s : List Char) : List (List Char) := wrapGo s.length s

/-- The lines actually drawn in the words-amount box (source line 196):
only the first two wrapped lines of the period-terminated text. -/
def extLines (extenso : List Char) : List (List Char) :=
  (wrapLines (appendPeriod extenso)).take 2

/-- One drawing operation issued to the reportlab canvas. -/
inductive DrawOp where
  | setLineWidth (w : ℚ)
  | setFillRGB (r g b : ℚ)
  | setFont (name : String) (size : ℚ)
  | rect (x y w h : ℚ) (stroke fill : Bool)
  | drawString (x y : ℚ) (s : String)
  | drawRightString (x y : ℚ) (s : String)
  | drawCentredString (x y : ℚ) (s : String)
  | line (x1 y1 x2 y2 : ℚ)
  deriving DecidableEq

/-- The receipt record dictionary passed to the renderer: nome and valor
are accessed unconditionally, every other key is read with a default. -/
structure ReciboD where
  nome : String
  valor : String
  cpf_cnpj : Option String := none
  valor_extenso : Option String := none
  data_recibo : Option String := none
  referente : Option String := none
  observacoes : Option String := none
  empresa_nome : Option String := none
  empresa_cnpj : Option String := none
  empresa_end : Option String := none
  deriving DecidableEq

def mm : ℚ := 360 / 127

def pageWidth : ℚ := 210 * mm

def pageHeight : ℚ := 297 * mm

def margin : ℚ := 12 * mm

def box_w : ℚ := 55 * mm

def box_h : ℚ := 14 * mm

def box_x : ℚ := pageWidth - margin - box_w - 6 * mm

def box_y : ℚ := pageHeight - margin - box_h - 14 * mm

def recebemos_y : ℚ := box_y - 18

def nome_box_w : ℚ := pageWidth - 2 * margin - box_w - 24 * mm

def nome_box_x : ℚ := margin + 10

def nome_box_h : ℚ := 26

def nome_box_y : ℚ := recebemos_y - 8 - nome_box_h

def extenso_y_top : ℚ := nome_box_y - 10

def ext_box_x : ℚ := margin + 10

def ext_box_w : ℚ := pageWidth - 2 * margin - 20

def ext_box_h : ℚ := 36

def ext_box_y : ℚ := extenso_y_top - 8 - ext_box_h

def ref_y : ℚ := ext_box_y - 8

def discr_x : ℚ := margin + 10

def discr_y : ℚ := ref_y - 26

def discr_w : ℚ := 90 * mm

def discr_h : ℚ := 60 * mm

def assin_x : ℚ := discr_x + discr_w + 12

def assin_y : ℚ := discr_y - 10

def assin_w : ℚ := pageWidth - margin - assin_x - 8

def assin_h : ℚ := discr_h - 8

def rodape_y : ℚ := margin + 28

/-- Issuer name with its configured default (source line 122). -/
def empresaOf (d : ReciboD) : String := d.empresa_nome.getD "ESTILU CONTABILIDADE LTDA"

/-- Outer border and centred header (source lines 117-129). -/
def headerOps (d : ReciboD) : List DrawOp :=
  [.setLineWidth 2,
   .rect margin margin (pageWidth - 2 * margin) (pageHeight - 2 * margin) true false,
   .setFont "Helvetica-Bold" 14,
   .drawCentredString (pageWidth / 2) (pageHeight - margin - 8) (empresaOf d),
   .setFont "Helvetica" 8,
   .drawCentredString (pageWidth / 2) (pageHeight - margin - 22)
     (d.empresa_cnpj.getD "CNPJ: 26.631.734/0001-62" ++ "   " ++
      d.empresa_end.getD "Rua Oratório, 1683 - Parque das Nações - Santo André - SP")]

/-- Tinted numeric amount box, top right (source lines 131-143). -/
def valorBoxOps (v : ℚ) : List DrawOp :=
  [.setFillRGB 1 1 (3/5),
   .rect box_x box_y box_w box_h false true,
   .setLineWidth 1,
   .setFillRGB 0 0 0,
   .rect box_x box_y box_w box_h true false,
   .setFont "Helvetica-Bold" 11,
   .drawRightString (box_x + box_w - 8) (box_y + box_h / 2 - 4) (valorFormatado v)]

/-- RECEBEMOS DE label and tinted payer-name box (source lines 145-159). -/
def nomeBoxOps (d : ReciboD) : List DrawOp :=
  [.setFont "Helvetica" 9,
   .drawString (margin + 10) (recebemos_y + 12) "RECEBEMOS DE:",
   .setFillRGB 1 1 (9/10),
   .rect nome_box_x nome_box_y nome_box_w nome_box_h false true,
   .setFillRGB 0 0 0,
   .setLineWidth 1,
   .rect nome_box_x nome_box_y nome_box_w nome_box_h true false,
   .setFont "Helvetica-Bold" 10,
   .drawString (nome_box_x + 6) (nome_box_y + 6) d.nome]

/-- Words-amount block: label, tinted box, and the at most two wrapped
lines of the period-terminated words text (source lines 161-198). -/
def extensoOps (d : ReciboD) : List DrawOp :=
  [.setFont "Helvetica" 9,
   .drawString (margin + 10) extenso_y_top "LÍQUIDA DE:",
   .setFillRGB 1 1 (9/10),
   .rect ext_box_x ext_box_y ext_box_w ext_box_h false true,
   .setFillRGB 0 0 0,
   .rect ext_box_x ext_box_y ext_box_w ext_box_h true false,
   .setFont "Helvetica" 9]
  ++ ((extLines ((d.valor_extenso.getD "").toList)).enum.map
      (fun p => DrawOp.drawString (ext_box_x + 6)
        (ext_box_y + ext_box_h - 12 - 12 * (p.1 : ℚ)) (String.mk p.2)))

/-- REFERENTE line (source lines 200-205). -/
def referenteOps (d : ReciboD) : List DrawOp :=
  [.setFont "Helvetica" 9,
   .drawString (margin + 10) ref_y "REFERENTE:",
   .setFont "Helvetica-Bold" 9,
   .drawString (margin + 80) ref_y (d.referente.getD "")]

/-- Itemization table (source lines 207-224): principal MENSALIDADE line
with the formatted amount, two placeholder lines with R$ -, and the VALOR
TOTAL row with the formatted amount. -/
def discrOps (v : ℚ) : List DrawOp :=
  [.rect discr_x (discr_y - discr_h) discr_w discr_h true false,
   .setFont "Helvetica-Bold" 9,
   .drawString (discr_x + 8) (discr_y - 12) "DISCRIMINAÇÃO DOS VALORES",
   .setFont "Helvetica" 9,
   .drawString (discr_x + 10) (discr_y - 30) "MENSALIDADE",
   .drawRightString (discr_x + discr_w - 10) (discr_y - 30) (valorFormatado v),
   .drawString (discr_x + 10) (discr_y - 46) "ALT. CONTRATO",
   .drawRightString (discr_x + discr_w - 10) (discr_y - 46) "R$ -",
   .drawString (discr_x + 10) (discr_y - 62) "REGULARIZAÇÃO",
   .drawRightString (discr_x + discr_w - 10) (discr_y - 62) "R$ -",
   .setFont "Helvetica-Bold" 9,
   .drawString (discr_x + 10) (discr_y - 86) "VALOR TOTAL",
   .drawRightString (discr_x + discr_w - 10) (discr_y - 86) (valorFormatado v)]

/-- Signature block (source lines 226-239). -/
def assinOps (d : ReciboD) : List DrawOp :=
  [.rect assin_x (assin_y - assin_h) assin_w assin_h true false,
   .setFont "Helvetica" 9,
   .drawString (assin_x + 8) (assin_y - 16) "NOME:",
   .line (assin_x + 8) (assin_y - 36) (assin_x + assin_w - 8) (assin_y - 36),
   .drawString (assin_x + 8) (assin_y - 58) "CNPJ/CPF:",
   .line (assin_x + 8) (assin_y - 78) (assin_x + assin_w - 8) (assin_y - 78),
   .setFont "Helvetica-Bold" 9,
   .drawString (assin_x + 10) (assin_y - 28) d.nome,
   .drawString (assin_x + 10) (assin_y - 70) (d.cpf_cnpj.getD "")]

/-- Footer: place and date, notes, and the issuer name as implicit
signature (source lines 241-250). -/
def rodapeOps (d : ReciboD) : List DrawOp :=
  [.setFont "Helvetica" 9,
   .drawString (margin + 10) (rodape_y + 6) ("Santo André, " ++ d.data_recibo.getD ""),
   .setFont "Helvetica" 8,
   .drawString (margin + 10) (rodape_y - 8) ("Observações: " ++ d.observacoes.getD ""),
   .setFont "Helvetica-Bold" 9,
   .drawRightString (pageWidth - margin - 8) (margin + 12) (empresaOf d)]

/-- All drawing operations of one rendered page, in source order. -/
def reciboOps (d : ReciboD) (v : ℚ) : List DrawOp :=
  headerOps d ++ valorBoxOps v ++ nomeBoxOps d ++ extensoOps d
  ++ referenteOps d ++ discrOps v ++ assinOps d ++ rodapeOps d

/-- Embedding of gerar_recibo_pdf_memoria (source lines 111-255): render
the fixed-layout page for the record into a fresh buffer.  When
float(valor) raises (the amount does not parse), the exception propagates
and the function returns no buffer, modelled as none; otherwise the
returned buffer is identified with the list of drawing operations. -/
def gerar_recibo_pdf_memoria (d : ReciboD) : Option (List DrawOp) :=
  match parseAmount d.valor with
  | none => none
  | some v => some (reciboOps d v)

theorem pyRound_nonpos {x : ℚ} (hx : x ≤ 0) : pyRound x ≤ 0 := by
  unfold pyRound
  have hf : ⌊x⌋ ≤ 0 := by
    have h0 : ⌊x⌋ ≤ ⌊(0 : ℚ)⌋ := Int.floor_le_floor hx
    simpa using h0
  split_ifs with h1 h2 h3
  · exact hf
  · have hlt : (⌊x⌋ : ℚ) < 0 := by linarith [Int.floor_le x]
    have : ⌊x⌋ < 0 := by exact_mod_cast hlt
    omega
  · exact hf
  · have heq : x - (⌊x⌋ : ℚ) = 1/2 := le_antisymm (not_lt.mp h2) (not_lt.mp h1)
    have hlt : (⌊x⌋ : ℚ) < 0 := by linarith
    have : ⌊x⌋ < 0 := by exact_mod_cast hlt
    omega

theorem truncRat_nonpos_of_neg {v : ℚ} (hv : v < 0) : truncRat v ≤ 0 := by
  unfold truncRat
  rw [if_neg (not_le.mpr hv)]
  have h0 : (0 : ℤ) ≤ ⌊-v⌋ := Int.floor_nonneg.mpr (by linarith)
  omega

theorem sub_truncRat_nonpos_of_neg {v : ℚ} (hv : v < 0) :
    v - (truncRat v : ℚ) ≤ 0 := by
  unfold truncRat
  rw [if_neg (not_le.mpr hv)]
  push_cast
  have h0 := Int.floor_le (-v)
  linarith

/-- Claim C5: valor_por_extenso of 0 is exactly the fixed literal
"zero reais"; in general, whenever the truncated integer part and the
rounded centavos part are both zero, the result is that literal. -/
theorem valor_por_extenso_zero :
    (∀ (s : String) (v : ℚ), parseAmount s = some v → truncRat v = 0 →
      pyRound ((v - (truncRat v : ℚ)) * 100) = 0 →
      valor_por_extenso s = "zero reais")
    ∧ valor_por_extenso "0" = "zero reais" := by
  constructor
  · intro s v hp hI hF
    have h1 : ¬ (0 < truncRat v) := by omega
    have h2 : ¬ (0 < pyRound ((v - (truncRat v : ℚ)) * 100)) := by omega
    simp [valor_por_extenso, hp, h1, h2]
  · decide

/-- Witness for C5 at the concrete input "0.00". -/
theorem valor_por_extenso_zero_witness :
    valor_por_extenso "0.00" = "zero reais" :=
  valor_por_extenso_zero.1 "0.00" (mkRat 0 1) (by decide) (by decide) (by decide)

/-- Claim C4: with positive integer part I and positive centavos part F,
valor_por_extenso uses the singular noun real exactly when I = 1 and reais
otherwise, centavo exactly when F = 1 and centavos otherwise, joining the
two parts with " e "; and valor_por_extenso of 1.01 is
"um real e um centavo". -/
theorem valor_por_extenso_singular_plural :
    (∀ (s : String) (v : ℚ), parseAmount s = some v →
      0 < truncRat v → 0 < pyRound ((v - (truncRat v : ℚ)) * 100) →
      valor_por_extenso s =
        num2words (truncRat v).toNat ++ " "
        ++ (if truncRat v = 1 then "real" else "reais")
        ++ " e "
        ++ num2words (pyRound ((v - (truncRat v : ℚ)) * 100)).toNat ++ " "
        ++ (if pyRound ((v - (truncRat v : ℚ)) * 100) = 1 then "centavo" else "centavos"))
    ∧ valor_por_extenso "1.01" = "um real e um centavo" := by
  constructor
  · intro s v hp hI hF
    simp [valor_por_extenso, hp, hI, hF, joinE, String.append_assoc]
  · decide

/-- Witness for C4 at the concrete input "2.02". -/
theorem valor_por_extenso_singular_plural_witness :
    valor_por_extenso "2.02" = "dois reais e dois centavos" := by
  rw [valor_por_extenso_singular_plural.1 "2.02" (mkRat 101 50)
    (by decide) (by decide) (by decide)]
  decide

/-- Claim C1 (amended): valor_por_extenso performs no carry when the
centavos part rounds to exactly 100: it emits the words for 100 centavos
("cem centavos") after the unchanged integer part, instead of incrementing
the integer part and resetting the centavos to zero. -/
theorem valor_por_extenso_no_carry :
    ∀ (s : String) (v : ℚ), parseAmount s = some v →
      pyRound ((v - (truncRat v : ℚ)) * 100) = 100 →
      valor_por_extenso s =
        (if 0 < truncRat v then
          num2words (truncRat v).toNat ++ " "
          ++ (if truncRat v = 1 then "real" else "reais") ++ " e "
         else "") ++ "cem centavos" := by
  intro s v hp hF
  by_cases hI : 0 < truncRat v
  · simp only [valor_por_extenso, hp, hF, hI, if_pos, if_true]
    simp [joinE, String.append_assoc]
    rw [(by decide : " e " ++ (num2words 100 ++ " centavos") = " e cem centavos")]
  · simp only [valor_por_extenso, hp, hF, hI, if_false]
    simp [joinE, hI]
    decide

/-- Counterexample for C1 as stated: at the amount 2.995 (the spec's own
example) the code reports "dois reais e cem centavos" - the words for 100
centavos with the unincremented integer part - and not the carried
"três reais". -/
theorem valor_por_extenso_cem_centavos :
    valor_por_extenso "2.995" = "dois reais e cem centavos" := by decide

/-- Witness for the amended C1 at the concrete input "0.995". -/
theorem valor_por_extenso_no_carry_witness :
    valor_por_extenso "0.995" = "cem centavos" := by
  rw [valor_por_extenso_no_carry "0.995" (mkRat 199 200) (by decide) (by decide)]
  decide

/-- Claim C2 (amended): on an input whose amount does not parse as a
number, the renderer fails (the float conversion raises) and produces no
output bytes, while valor_por_extenso does not fail: it catches the parse
error and returns the empty string. -/
theorem gerar_recibo_unparseable :
    ∀ d : ReciboD, parseAmount d.valor = none →
      gerar_recibo_pdf_memoria d = none ∧ valor_por_extenso d.valor = "" := by
  intro d h
  constructor
  · simp [gerar_recibo_pdf_memoria, h]
  · simp [valor_por_extenso, h]

/-- Counterexample for C2 as stated: the words conversion does not raise an
InvalidAmount condition on the unparseable input "abc"; it returns the
empty string as an ordinary value. -/
theorem valor_por_extenso_unparseable_empty :
    parseAmount "abc" = none ∧ valor_por_extenso "abc" = "" := by
  exact ⟨by decide, by decide⟩

/-- Witness for the amended C2 at a concrete record. -/
theorem gerar_recibo_unparseable_witness :
    gerar_recibo_pdf_memoria { nome := "Fulano", valor := "x1" } = none ∧
      valor_por_extenso "x1" = "" :=
  gerar_recibo_unparseable { nome := "Fulano", valor := "x1" } (by decide)

/-- Claim C10: every parseable negative amount produces the literal
"zero reais": the integer branch requires a positive truncated part and the
centavos branch a positive rounded part, and a negative value satisfies
neither, so no part is emitted. -/
theorem valor_por_extenso_negative :
    ∀ (s : String) (v : ℚ), parseAmount s = some v → v < 0 →
      valor_por_extenso s = "zero reais" := by
  intro s v hp hv
  have hT : truncRat v ≤ 0 := truncRat_nonpos_of_neg hv
  have hfrac : v - (truncRat v : ℚ) ≤ 0 := sub_truncRat_nonpos_of_neg hv
  have hC : pyRound ((v - (truncRat v : ℚ)) * 100) ≤ 0 :=
    pyRound_nonpos (mul_nonpos_iff.mpr (Or.inr ⟨hfrac, by norm_num⟩))
  have h1 : ¬ (0 < truncRat v) := by omega
  have h2 : ¬ (0 < pyRound ((v - (truncRat v : ℚ)) * 100)) := by omega
  simp [valor_por_extenso, hp, h1, h2]

/-- Witness for C10 at the concrete input "-1.50". -/
theorem valor_por_extenso_negative_witness :
    valor_por_extenso "-1.50" = "zero reais" :=
  valor_por_extenso_negative "-1.50" (-(3/2) : ℚ) (by decide) (by decide)

/-- Claim C9: the words text drawn in the words-amount box always ends with
a period: when the text is nonempty and does not already end with one, a
period is appended before wrapping, and when it already ends with one the
text is left unchanged. -/
theorem appendPeriod_period :
    (∀ s : List Char, s ≠ [] → (appendPeriod s).getLast? = some '.')
    ∧ (∀ s : List Char, s.getLast? = some '.' → appendPeriod s = s) := by
  constructor
  · intro s hs
    unfold appendPeriod
    split_ifs with h
    · simp
    · push_neg at h
      exact h hs
  · intro s hs
    unfold appendPeriod
    rw [if_neg (by simp [hs])]

/-- Witness for C9 at concrete words texts. -/
theorem appendPeriod_period_witness :
    (appendPeriod "dez reais".toList).getLast? = some '.' ∧
      appendPeriod "dez reais.".toList = "dez reais.".toList :=
  ⟨appendPeriod_period.1 "dez reais".toList (by decide),
   appendPeriod_period.2 "dez reais.".toList (by decide)⟩

/-- Claim C8: the renderer is deterministic and pure in its input: two
records with equal field values render to identical output, since the
function reads only the record and fixed constants. -/
theorem gerar_recibo_deterministic :
    ∀ d₁ d₂ : ReciboD, d₁.nome = d₂.nome → d₁.valor = d₂.valor →
      d₁.cpf_cnpj = d₂.cpf_cnpj → d₁.valor_extenso = d₂.valor_extenso →
      d₁.data_recibo = d₂.data_recibo → d₁.referente = d₂.referente →
      d₁.observacoes = d₂.observacoes → d₁.empresa_nome = d₂.empresa_nome →
      d₁.empresa_cnpj = d₂.empresa_cnpj → d₁.empresa_end = d₂.empresa_end →
      gerar_recibo_pdf_memoria d₁ = gerar_recibo_pdf_memoria d₂ := by
  intro d₁ d₂ h1 h2 h3 h4 h5 h6 h7 h8 h9 h10
  have hd : d₁ = d₂ := by
    cases d₁
    cases d₂
    simp_all
  rw [hd]

/-- Witness for C8 at two identical concrete records. -/
theorem gerar_recibo_deterministic_witness :
    gerar_recibo_pdf_memoria { nome := "A", valor := "1.00" } =
      gerar_recibo_pdf_memoria { nome := "A", valor := "1.00" } :=
  gerar_recibo_deterministic _ _ rfl rfl rfl rfl rfl rfl rfl rfl rfl rfl

/-- Claim C7: in the rendered operation stream, the VALOR TOTAL row of the
itemization table draws exactly the same formatted string as the
MENSALIDADE principal row, namely valorFormatado of the record amount (the
two rows between them are the fixed placeholders). -/
theorem discr_total_equals_principal :
    ∀ (d : ReciboD) (v : ℚ), parseAmount d.valor = some v →
      ∃ pre mid post : List DrawOp,
        gerar_recibo_pdf_memoria d =
          some (pre
            ++ [DrawOp.drawRightString (discr_x + discr_w - 10) (discr_y - 30)
                  (valorFormatado v)]
            ++ mid
            ++ [DrawOp.drawRightString (discr_x + discr_w - 10) (discr_y - 86)
                  (valorFormatado v)]
            ++ post) := by
  intro d v hp
  refine ⟨headerOps d ++ valorBoxOps v ++ nomeBoxOps d ++ extensoOps d ++ referenteOps d
      ++ [DrawOp.rect discr_x (discr_y - discr_h) discr_w discr_h true false,
          DrawOp.setFont "Helvetica-Bold" 9,
          DrawOp.drawString (discr_x + 8) (discr_y - 12) "DISCRIMINAÇÃO DOS VALORES",
          DrawOp.setFont "Helvetica" 9,
          DrawOp.drawString (discr_x + 10) (discr_y - 30) "MENSALIDADE"],
      [DrawOp.drawString (discr_x + 10) (discr_y - 46) "ALT. CONTRATO",
       DrawOp.drawRightString (discr_x + discr_w - 10) (discr_y - 46) "R$ -",
       DrawOp.drawString (discr_x + 10) (discr_y - 62) "REGULARIZAÇÃO",
       DrawOp.drawRightString (discr_x + discr_w - 10) (discr_y - 62) "R$ -",
       DrawOp.setFont "Helvetica-Bold" 9,
       DrawOp.drawString (discr_x + 10) (discr_y - 86) "VALOR TOTAL"],
      assinOps d ++ rodapeOps d, ?_⟩
  simp [gerar_recibo_pdf_memoria, hp, reciboOps, discrOps]

/-- Witness for C7 at a concrete record. -/
theorem discr_total_equals_principal_witness :
    ∃ pre mid post : List DrawOp,
      gerar_recibo_pdf_memoria { nome := "A", valor := "431.00" } =
        some (pre
          ++ [DrawOp.drawRightString (discr_x + discr_w - 10) (discr_y - 30)
                (valorFormatado (431 : ℚ))]
          ++ mid
          ++ [DrawOp.drawRightString (discr_x + discr_w - 10) (discr_y - 86)
                (valorFormatado (431 : ℚ))]
          ++ post) :=
  discr_total_equals_principal _ (431 : ℚ) (by decide)

theorem rfindSpace_lt {l : List Char} {j : ℕ} (h : rfindSpace l = some j) :
    j < l.length := by
  induction l generalizing j with
  | nil => simp [rfindSpace] at h
  | cons c t ih =>
    cases h' : rfindSpace t with
    | some j' =>
      simp only [rfindSpace, h', Option.some.injEq] at h
      subst h
      have := ih h'
      simp only [List.length_cons]
      omega
    | none =>
      simp only [rfindSpace, h'] at h
      split at h
      · simp only [Option.some.injEq] at h
        subst h
        simp
      · exact absurd h (by simp)

theorem rfindSpace_none {l : List Char} (h : rfindSpace l = none) :
    ∀ k : ℕ, l[k]? ≠ some ' ' := by
  induction l with
  | nil => intro k; simp
  | cons c t ih =>
    cases h' : rfindSpace t with
    | some j' => simp [rfindSpace, h'] at h
    | none =>
      simp only [rfindSpace, h'] at h
      split at h
      · exact absurd h (by simp)
      · next hcond =>
        have hc : ¬ c = ' ' := by
          intro he
          exact hcond (by simp [he])
        intro k
        cases k with
        | zero =>
          simp only [List.getElem?_cons_zero]
          intro he
          exact hc (by simpa using he)
        | succ k' =>
          simp only [List.getElem?_cons_succ]
          exact ih h' k'

theorem rfindSpace_get {l : List Char} {j : ℕ} (h : rfindSpace l = some j) :
    l[j]? = some ' ' := by
  induction l generalizing j with
  | nil => simp [rfindSpace] at h
  | cons c t ih =>
    cases h' : rfindSpace t with
    | some j' =>
      simp only [rfindSpace, h', Option.some.injEq] at h
      subst h
      simp only [List.getElem?_cons_succ]
      exact ih h'
    | none =>
      simp only [rfindSpace, h'] at h
      split at h
      · next hcond =>
        simp only [Option.some.injEq] at h
        subst h
        have hc : c = ' ' := by simpa using hcond
        simp [hc]
      · exact absurd h (by simp)

theorem rfindSpace_max {l : List Char} {j : ℕ} (h : rfindSpace l = some j) :
    ∀ k : ℕ, j < k → l[k]? ≠ some ' ' := by
  induction l generalizing j with
  | nil => simp [rfindSpace] at h
  | cons c t ih =>
    cases h' : rfindSpace t with
    | some j' =>
      simp only [rfindSpace, h', Option.some.injEq] at h
      subst h
      intro k hk
      cases k with
      | zero => omega
      | succ k' =>
        simp only [List.getElem?_cons_succ]
        exact ih h' k' (by omega)
    | none =>
      simp only [rfindSpace, h'] at h
      split at h
      · simp only [Option.some.injEq] at h
        subst h
        intro k hk
        cases k with
        | zero => omega
        | succ k' =>
          simp only [List.getElem?_cons_succ]
          exact rfindSpace_none h' k'
      · exact absurd h (by simp)

theorem wrapGo_fuel : ∀ (f₁ f₂ : ℕ) (s : List Char), s.length ≤ f₁ → s.length ≤ f₂ →
    wrapGo f₁ s = wrapGo f₂ s := by
  intro f₁
  induction f₁ with
  | zero =>
    intro f₂ s h1 h2
    have hs : s = [] := by
      cases s with
      | nil => rfl
      | cons c t => simp at h1
    subst hs
    cases f₂ <;> simp [wrapGo]
  | succ f ih =>
    intro f₂ s h1 h2
    cases s with
    | nil => cases f₂ <;> simp [wrapGo]
    | cons c t =>
      cases f₂ with
      | zero => simp at h2
      | succ g =>
        simp only [wrapGo]
        by_cases h90 : (c :: t).length ≤ 90
        · simp only [if_pos h90]
        · simp only [if_neg h90]
          cases hj : rfindSpace ((c :: t).take 90) with
          | none =>
            dsimp only
            rw [ih g _ (by simp only [List.length_drop]; omega)
              (by simp only [List.length_drop]; omega)]
          | some j =>
            dsimp only
            rw [ih g _ (by simp only [List.length_drop]; omega)
              (by simp only [List.length_drop]; omega)]

theorem wrapGo_budget : ∀ (f : ℕ) (s : List Char), s.length ≤ f →
    ∀ l ∈ wrapGo f s, l.length ≤ 90 := by
  intro f
  induction f with
  | zero =>
    intro s h l hl
    have hs : s = [] := by
      cases s with
      | nil => rfl
      | cons c t => simp at h
    subst hs
    simp [wrapGo] at hl
  | succ f ih =>
    intro s h l hl
    cases s with
    | nil => simp [wrapGo] at hl
    | cons c t =>
      simp only [wrapGo] at hl
      by_cases h90 : (c :: t).length ≤ 90
      · rw [if_pos h90] at hl
        simp only [List.mem_singleton] at hl
        subst hl
        exact h90
      · rw [if_neg h90] at hl
        cases hj : rfindSpace ((c :: t).take 90) with
        | none =>
          rw [hj] at hl
          simp only [List.mem_cons] at hl
          rcases hl with rfl | hl
          · simp [List.length_take]
          · exact ih _ (by simp only [List.length_drop]; omega) l hl
        | some j =>
          rw [hj] at hl
          have hjlt : j < 90 := by
            have h1 := rfindSpace_lt hj
            rw [List.length_take] at h1
            omega
          simp only [List.mem_cons] at hl
          rcases hl with rfl | hl
          · simp only [List.length_take]
            omega
          · exact ih _ (by simp only [List.length_drop]; omega) l hl

def w95 : String :=
  "novecentos e noventa e cinco mil quatrocentos e trinta e dois reais e cinquenta e sete centavos"

def w95a : String :=
  "novecentos e noventa e cinco mil quatrocentos e trinta e dois reais e cinquenta e sete"

def w95b : String := "centavos."

/-- Claim C6: the words-amount block draws at most 2 lines, every wrapped
line fits the 90-character budget, a soft break occurs exactly at the last
space within the first 90 characters (which is a space of the text, with no
later space inside the budget), a hard break at 90 occurs only when no
space exists within the budget, and the concrete 95-character words string
w95 wraps into exactly two lines broken at a space, never mid-word, with no
third line. -/
theorem wrap_two_lines :
    (∀ e : List Char, (extLines e).length ≤ 2)
    ∧ (∀ s : List Char, ∀ l ∈ wrapLines s, l.length ≤ 90)
    ∧ (∀ (s : List Char) (j : ℕ), 90 < s.length → rfindSpace (s.take 90) = some j →
        wrapLines s = s.take j :: wrapLines (s.drop (j + 1)) ∧
        s[j]? = some ' ' ∧ j < 90 ∧ ∀ k : ℕ, j < k → k < 90 → s[k]? ≠ some ' ')
    ∧ (∀ s : List Char, 90 < s.length → rfindSpace (s.take 90) = none →
        wrapLines s = s.take 90 :: wrapLines (s.drop 90) ∧
        ∀ k : ℕ, k < 90 → s[k]? ≠ some ' ')
    ∧ (w95.toList.length = 95 ∧
       extLines w95.toList = [w95a.toList, w95b.toList] ∧
       wrapLines (appendPeriod w95.toList) = [w95a.toList, w95b.toList] ∧
       w95a.toList ++ ' ' :: w95b.toList = w95.toList ++ ['.']) := by
  refine ⟨?_, ?_, ?_, ?_, ?_⟩
  · intro e
    exact List.length_take_le 2 _
  · intro s
    exact wrapGo_budget s.length s (le_refl _)
  · intro s j h hj
    have hjlt : j < 90 := by
      have h1 := rfindSpace_lt hj
      rw [List.length_take] at h1
      omega
    refine ⟨?_, ?_, hjlt, ?_⟩
    · cases s with
      | nil => simp at h
      | cons c t =>
        simp only [List.length_cons] at h
        show wrapGo (c :: t).length (c :: t) = _
        simp only [List.length_cons, wrapGo]
        rw [if_neg (by omega), hj]
        dsimp only
        rw [wrapGo_fuel t.length ((c :: t).drop (j + 1)).length ((c :: t).drop (j + 1))
          (by simp only [List.length_drop, List.length_cons]; omega) (le_refl _)]
        rfl
    · have hget := rfindSpace_get hj
      rwa [List.getElem?_take_of_lt hjlt] at hget
    · intro k hk1 hk2
      have hmax := rfindSpace_max hj k hk1
      rwa [List.getElem?_take_of_lt hk2] at hmax
  · intro s h hj
    refine ⟨?_, ?_⟩
    · cases s with
      | nil => simp at h
      | cons c t =>
        simp only [List.length_cons] at h
        show wrapGo (c :: t).length (c :: t) = _
        simp only [List.length_cons, wrapGo]
        rw [if_neg (by omega), hj]
        dsimp only
        rw [wrapGo_fuel t.length ((c :: t).drop 90).length ((c :: t).drop 90)
          (by simp only [List.length_drop, List.length_cons]; omega) (le_refl _)]
        rfl
    · intro k hk
      have hnone := rfindSpace_none hj k
      rwa [List.getElem?_take_of_lt hk] at hnone
  · exact ⟨by decide, by decide, by decide, by decide⟩

/-- Witness for C6: the general soft-break clause applied at the concrete
period-terminated 96-character text of w95. -/
theorem wrap_two_lines_witness :
    wrapLines (appendPeriod w95.toList) =
      (appendPeriod w95.toList).take 86 ::
        wrapLines ((appendPeriod w95.toList).drop 87) ∧
      (appendPeriod w95.toList)[86]? = some ' ' :=
  ⟨(wrap_two_lines.2.2.1 (appendPeriod w95.toList) 86 (by decide) (by decide)).1,
   (wrap_two_lines.2.2.1 (appendPeriod w95.toList) 86 (by decide) (by decide)).2.1⟩

theorem digitChar_isDigit {m : ℕ} (h : m < 10) : (digitChar m).isDigit = true := by
  interval_cases m <;> decide

theorem natDigitsGo_digits : ∀ (f n : ℕ), ∀ c ∈ natDigitsGo f n, c.isDigit = true := by
  intro f
  induction f with
  | zero =>
    intro n c hc
    simp only [natDigitsGo, List.mem_singleton] at hc
    subst hc
    exact digitChar_isDigit (Nat.mod_lt _ (by norm_num))
  | succ f ih =>
    intro n c hc
    simp only [natDigitsGo] at hc
    by_cases h10 : n < 10
    · rw [if_pos h10] at hc
      simp only [List.mem_singleton] at hc
      subst hc
      exact digitChar_isDigit h10
    · rw [if_neg h10] at hc
      rcases List.mem_append.mp hc with hc | hc
      · exact ih _ c hc
      · simp only [List.mem_singleton] at hc
        subst hc
        exact digitChar_isDigit (Nat.mod_lt _ (by norm_num))

theorem natDigits_digits (n : ℕ) : ∀ c ∈ natDigits n, c.isDigit = true :=
  natDigitsGo_digits n n

theorem natDigitsGo_ne_nil (f n : ℕ) : natDigitsGo f n ≠ [] := by
  cases f with
  | zero => simp [natDigitsGo]
  | succ f =>
    simp only [natDigitsGo]
    by_cases h10 : n < 10
    · simp [h10]
    · simp [h10]

theorem chunks3Go_structure : ∀ (f : ℕ) (l : List Char), l ≠ [] → l.length ≤ f →
    ∃ init last, chunks3Go f l = init ++ [last] ∧
      (∀ c ∈ init, c.length = 3) ∧ 1 ≤ last.length ∧ last.length ≤ 3 ∧
      (init ++ [last]).flatten = l := by
  intro f
  induction f with
  | zero =>
    intro l hl hlen
    exact absurd (List.eq_nil_of_length_eq_zero (by omega)) hl
  | succ f ih =>
    intro l hl hlen
    by_cases h3 : l.length ≤ 3
    · have hdrop : l.drop 3 = [] := List.drop_eq_nil_of_le h3
      have htake : l.take 3 = l := List.take_of_length_le h3
      refine ⟨[], l, ?_, by simp, ?_, h3, by simp⟩
      · cases l with
        | nil => exact absurd rfl hl
        | cons c t => simp [chunks3Go, htake, hdrop]
      · have := List.length_pos.mpr hl
        omega
    · have hdlen : (l.drop 3).length = l.length - 3 := List.length_drop 3 l
      have hd : l.drop 3 ≠ [] := by
        rw [← List.length_pos, hdlen]
        omega
      obtain ⟨init, last, heq, hinit, h1, h2, hflat⟩ :=
        ih (l.drop 3) hd (by rw [hdlen]; omega)
      refine ⟨l.take 3 :: init, last, ?_, ?_, h1, h2, ?_⟩
      · cases l with
        | nil => exact absurd rfl hl
        | cons c t =>
          simp only [chunks3Go]
          rw [heq]
          rfl
      · intro g hg
        rcases List.mem_cons.mp hg with rfl | hg
        · rw [List.length_take]
          omega
        · exact hinit g hg
      · simp only [List.cons_append, List.flatten_cons]
        rw [hflat]
        exact List.take_append_drop 3 l

theorem map_intersperse_general {α β : Type} (f : α → β) (sep : α) :
    ∀ L : List α, (L.intersperse sep).map f = (L.map f).intersperse (f sep)
  | [] => rfl
  | [x] => rfl
  | x :: y :: xs => by
    simp only [List.intersperse_cons₂, List.map_cons]
    rw [map_intersperse_general f sep (y :: xs)]
    simp

theorem map_intercalate_general {α β : Type} (f : α → β) (s : List α) (L : List (List α)) :
    (List.intercalate s L).map f = List.intercalate (s.map f) (L.map (List.map f)) := by
  simp only [List.intercalate, List.map_flatten]
  rw [map_intersperse_general (List.map f) s L]

/-- The character substitution performed by the three-step replace chain of
source line 142. -/
def swapChar (c : Char) : Char :=
  if c = ',' then '.' else if c = '.' then ',' else if c = 'X' then '.' else c

theorem swapSeps_eq_map (s : List Char) : swapSeps s = s.map swapChar := by
  unfold swapSeps replace1
  rw [List.map_map, List.map_map]
  apply List.map_congr_left
  intro a _
  simp only [Function.comp_apply, swapChar]
  by_cases h1 : a = ','
  · simp [h1]
  · by_cases h2 : a = '.'
    · simp [h1, h2]
    · by_cases h3 : a = 'X'
      · simp [h1, h2, h3]
      · simp [h1, h2, h3]

theorem swapChar_digit {c : Char} (h : c.isDigit = true) : swapChar c = c := by
  have h1 : ¬ c = ',' := by
    intro he
    rw [he] at h
    exact absurd h (by decide)
  have h2 : ¬ c = '.' := by
    intro he
    rw [he] at h
    exact absurd h (by decide)
  have h3 : ¬ c = 'X' := by
    intro he
    rw [he] at h
    exact absurd h (by decide)
  simp [swapChar, h1, h2, h3]

theorem map_swapChar_digits {l : List Char} (h : ∀ c ∈ l, c.isDigit = true) :
    l.map swapChar = l := by
  induction l with
  | nil => rfl
  | cons c t ih =>
    simp only [List.map_cons]
    rw [swapChar_digit (h c (by simp)), ih (fun c hc => h c (by simp [hc]))]

theorem map_map_swapChar_digits {L : List (List Char)}
    (h : ∀ x ∈ L, ∀ c ∈ x, c.isDigit = true) :
    L.map (List.map swapChar) = L := by
  induction L with
  | nil => rfl
  | cons g t ih =>
    simp only [List.map_cons]
    rw [map_swapChar_digits (h g (by simp)), ih (fun x hx => h x (by simp [hx]))]

theorem groupComma_shape (n : ℕ) :
    ∃ g gs, groupComma n = List.intercalate [','] (g :: gs) ∧
      (∀ c ∈ g, c.isDigit = true) ∧ 1 ≤ g.length ∧ g.length ≤ 3 ∧
      ∀ h ∈ gs, (∀ c ∈ h, c.isDigit = true) ∧ h.length = 3 := by
  have hne : (natDigits n).reverse ≠ [] := by
    simp only [ne_eq, List.reverse_eq_nil_iff]
    exact natDigitsGo_ne_nil n n
  obtain ⟨init, last, heq, hinit, hl1, hl2, hflat⟩ :=
    chunks3Go_structure (natDigits n).reverse.length (natDigits n).reverse hne (le_refl _)
  have hmem : ∀ c ∈ (natDigits n).reverse, c.isDigit = true := by
    intro c hc
    exact natDigits_digits n c (List.mem_reverse.mp hc)
  have hgrpd : ∀ x, x ∈ init ++ [last] → ∀ c ∈ x, c.isDigit = true := by
    intro x hx c hc
    apply hmem
    rw [← hflat]
    exact List.mem_flatten.mpr ⟨x, hx, hc⟩
  refine ⟨last.reverse, (init.map List.reverse).reverse, ?_, ?_, ?_, ?_, ?_⟩
  · simp only [groupComma]
    rw [heq]
    congr 1
    simp
  · intro c hc
    exact hgrpd last (by simp) c (List.mem_reverse.mp hc)
  · simp only [List.length_reverse]
    exact hl1
  · simp only [List.length_reverse]
    exact hl2
  · intro h hh
    rw [List.mem_reverse, List.mem_map] at hh
    obtain ⟨g0, hg0, rfl⟩ := hh
    constructor
    · intro c hc
      exact hgrpd g0 (by simp [hg0]) c (List.mem_reverse.mp hc)
    · simp only [List.length_reverse]
      exact hinit g0 hg0

/-- Well-formedness of the numeric currency text after the R$ prefix: one
or more dot-separated digit groups, the first of one to three digits and
the rest of exactly three, followed by a comma and exactly two decimal
digit characters. -/
def currencyShape (t : List Char) : Prop :=
  ∃ g gs d1 d2, t = List.intercalate ['.'] (g :: gs) ++ ',' :: [d1, d2] ∧
    (∀ c ∈ g, c.isDigit = true) ∧ 1 ≤ g.length ∧ g.length ≤ 3 ∧
    (∀ h ∈ gs, (∀ c ∈ h, c.isDigit = true) ∧ h.length = 3) ∧
    d1.isDigit = true ∧ d2.isDigit = true

/-- Claim C3: for every nonnegative amount the drawn currency string is the
R$ prefix followed by a well-formed numeric text with dot-separated
three-digit groups, a comma as decimal separator and exactly two decimal
digits; in particular 1234.5 parses and formats as R$ 1.234,50. -/
theorem valor_formatado_shape :
    (∀ v : ℚ, 0 ≤ v →
      ∃ rest, valorFormatadoL v = 'R' :: '$' :: ' ' :: rest ∧ currencyShape rest)
    ∧ parseAmount "1234.5" = some (2469/2 : ℚ)
    ∧ valorFormatado (2469/2 : ℚ) = "R$ 1.234,50" := by
  refine ⟨?_, by decide, by decide⟩
  intro v hv
  refine ⟨(pyFormat2f v).map swapChar, ?_, ?_⟩
  · unfold valorFormatadoL
    rw [swapSeps_eq_map]
    simp only [List.map_cons]
    rw [(by decide : swapChar 'R' = 'R'), (by decide : swapChar '$' = '$'),
      (by decide : swapChar ' ' = ' ')]
  · obtain ⟨g, gs, hgc, hgd, hg1, hg3, hgs⟩ :=
      groupComma_shape ((pyRound (v * 100)).toNat / 100)
    have hdig : ∀ x ∈ g :: gs, ∀ c ∈ x, c.isDigit = true := by
      intro x hx
      rcases List.mem_cons.mp hx with rfl | hx
      · exact hgd
      · exact (hgs x hx).1
    have hpad : ∀ c ∈ pad2 ((pyRound (v * 100)).toNat % 100), c.isDigit = true := by
      intro c hc
      simp only [pad2, List.mem_cons, List.not_mem_nil, or_false] at hc
      rcases hc with rfl | rfl
      · exact digitChar_isDigit (Nat.mod_lt _ (by norm_num))
      · exact digitChar_isDigit (Nat.mod_lt _ (by norm_num))
    refine ⟨g, gs, digitChar ((pyRound (v * 100)).toNat % 100 / 10 % 10),
      digitChar ((pyRound (v * 100)).toNat % 100 % 10), ?_, hgd, hg1, hg3, hgs,
      digitChar_isDigit (Nat.mod_lt _ (by norm_num)),
      digitChar_isDigit (Nat.mod_lt _ (by norm_num))⟩
    unfold pyFormat2f
    simp only [if_neg (not_lt.mpr hv), List.nil_append]
    rw [hgc, List.map_append, map_intercalate_general]
    simp only [List.map_cons, List.map_nil]
    rw [(by decide : swapChar ',' = '.'), (by decide : swapChar '.' = ',')]
    rw [map_swapChar_digits hgd, map_map_swapChar_digits (fun x hx => (hgs x hx).1),
      map_swapChar_digits hpad]
    rfl

/-- Witness for C3 at the concrete amount 1234.5. -/
theorem valor_formatado_shape_witness :
    ∃ rest, valorFormatadoL (2469/2 : ℚ) = 'R' :: '$' :: ' ' :: rest ∧
      currencyShape rest :=
  valor_formatado_shape.1 (2469/2 : ℚ) (by decide)

example : parseAmount "0.995" = some (mkRat 199 200) := by decide
example : parseAmount "abc" = none := by decide
example : parseAmount "1234.5" = some (2469/2 : ℚ) := by decide
example : parseAmount "-1.50" = some (-(3/2) : ℚ) := by decide
example : valor_por_extenso "0.995" = "cem centavos" := by decide
example : valor_por_extenso "0" = "zero reais" := by decide
example : valor_por_extenso "1.01" = "um real e um centavo" := by decide
example : valor_por_extenso "-1.50" = "zero reais" := by decide
example : valor_por_extenso "431.00" = "quatrocentos e trinta e um reais" := by decide
example : valor_por_extenso "2.995" = "dois reais e cem centavos" := by decide
example : valorFormatado (2469/2 : ℚ) = "R$ 1.234,50" := by decide
example : valorFormatado (431 : ℚ) = "R$ 431,00" := by decide
example : valorFormatado (1234567 : ℚ) = "R$ 1.234.567,00" := by decide
example : rfindSpace "ab cd e".toList = some 5 := by decide
example : rfindSpace "abcde".toList = none := by decide
example : appendPeriod "abc".toList = "abc.".toList := by decide
example : appendPeriod "abc.".toList = "abc.".toList := by decide
example : wrapLines "ab cd".toList = ["ab cd".toList] := by decide
example :
    gerar_recibo_pdf_memoria { nome := "X", valor := "abc" } = none := by decide
